import Mathlib

/-!
Verification of the link-shortener repository's core: the `links` table
schema (from `src/db/schema.ts` and the generated migration SQL) and the
short-code allocator design (modelled from the specification, since the
allocator's implementation file is not part of the sources; only its
schema, seed script and doc-embedded tests are).

Machine integers do not occur; timestamps are modelled as abstract `Nat`
ticks. Randomness (the candidate generator, the `nanoid()` id generator)
is modelled as an explicit oracle `Nat → String` giving the k-th draw.
-/

namespace LinkShortener

/-! ## Schema embedding

Columns of the `links` table, from two places in the source:
`src/db/schema.ts` (the Drizzle ORM declaration) and the checked-in
migration SQL (`CREATE TABLE "links" ...`). -/

/-- SQL column types occurring in the `links` table. -/
inductive SqlType where
  | text
  | varcharN (n : Nat)
  | timestamptz
  deriving Repr, DecidableEq

/-- One column declaration: name, type, NOT NULL, column-level UNIQUE,
PRIMARY KEY, and the database-side default expression, if any. -/
structure Column where
  name : String
  sqlType : SqlType
  notNull : Bool
  unique : Bool
  primaryKey : Bool
  defaultSql : Option String
  deriving Repr, DecidableEq

/-- A table declaration: columns plus table-level unique constraints and
indexes (each a constraint/index name with its column list). -/
structure SqlTable where
  name : String
  columns : List Column
  uniqueConstraints : List (String × List String)
  indexes : List (String × List String)
  deriving Repr, DecidableEq

/-- `id: text('id').primaryKey()` from `src/db/schema.ts` (PRIMARY KEY
implies NOT NULL, as the generated SQL confirms). -/
def idColumnTs : Column :=
  { name := "id", sqlType := .text, notNull := true, unique := false,
    primaryKey := true, defaultSql := none }

/-- `userId: text('user_id').notNull()` from `src/db/schema.ts`. -/
def userIdColumnTs : Column :=
  { name := "user_id", sqlType := .text, notNull := true, unique := false,
    primaryKey := false, defaultSql := none }

/-- `url: text('url').notNull()` from `src/db/schema.ts`. -/
def urlColumnTs : Column :=
  { name := "url", sqlType := .text, notNull := true, unique := false,
    primaryKey := false, defaultSql := none }

/-- `shortCode: varchar('short_code', { length: 20 }).notNull().unique()`
from `src/db/schema.ts`. -/
def shortCodeColumnTs : Column :=
  { name := "short_code", sqlType := .varcharN 20, notNull := true,
    unique := true, primaryKey := false, defaultSql := none }

/-- `createdAt: timestamp('created_at', { withTimezone: true }).defaultNow().notNull()`. -/
def createdAtColumnTs : Column :=
  { name := "created_at", sqlType := .timestamptz, notNull := true,
    unique := false, primaryKey := false, defaultSql := some "now()" }

/-- `updatedAt: timestamp('updated_at', { withTimezone: true }).defaultNow().notNull()`. -/
def updatedAtColumnTs : Column :=
  { name := "updated_at", sqlType := .timestamptz, notNull := true,
    unique := false, primaryKey := false, defaultSql := some "now()" }

/-- The `links` table as declared in `src/db/schema.ts`. -/
def linksTableTs : SqlTable :=
  { name := "links",
    columns := [idColumnTs, userIdColumnTs, urlColumnTs, shortCodeColumnTs,
                createdAtColumnTs, updatedAtColumnTs],
    uniqueConstraints := [],
    indexes := [("user_id_idx", ["user_id"]), ("short_code_idx", ["short_code"])] }

/-- `"id" text PRIMARY KEY NOT NULL` from the migration SQL. -/
def idColumnMig : Column :=
  { name := "id", sqlType := .text, notNull := true, unique := false,
    primaryKey := true, defaultSql := none }

/-- `"user_id" text NOT NULL` from the migration SQL. -/
def userIdColumnMig : Column :=
  { name := "user_id", sqlType := .text, notNull := true, unique := false,
    primaryKey := false, defaultSql := none }

/-- `"url" text NOT NULL` from the migration SQL. -/
def urlColumnMig : Column :=
  { name := "url", sqlType := .text, notNull := true, unique := false,
    primaryKey := false, defaultSql := none }

/-- `"short_code" text NOT NULL` from the migration SQL: note the type is
unbounded `text`, not `varchar(20)`. -/
def shortCodeColumnMig : Column :=
  { name := "short_code", sqlType := .text, notNull := true, unique := false,
    primaryKey := false, defaultSql := none }

/-- `"created_at" timestamp with time zone DEFAULT now() NOT NULL`. -/
def createdAtColumnMig : Column :=
  { name := "created_at", sqlType := .timestamptz, notNull := true,
    unique := false, primaryKey := false, defaultSql := some "now()" }

/-- `"updated_at" timestamp with time zone DEFAULT now() NOT NULL`. -/
def updatedAtColumnMig : Column :=
  { name := "updated_at", sqlType := .timestamptz, notNull := true,
    unique := false, primaryKey := false, defaultSql := some "now()" }

/-- The `links` table as created by the migration SQL, with the table-level
constraint `CONSTRAINT "links_short_code_unique" UNIQUE("short_code")`. -/
def linksTableMig : SqlTable :=
  { name := "links",
    columns := [idColumnMig, userIdColumnMig, urlColumnMig, shortCodeColumnMig,
                createdAtColumnMig, updatedAtColumnMig],
    uniqueConstraints := [("links_short_code_unique", ["short_code"])],
    indexes := [("user_id_idx", ["user_id"]), ("short_code_idx", ["short_code"])] }

/-- Whether a (non-null) string value fits a column's declared type:
`varchar(n)` bounds the length, `text` and `timestamptz` accept anything. -/
def colAccepts (c : Column) (v : String) : Bool :=
  match c.sqlType with
  | .varcharN n => decide (v.length ≤ n)
  | _ => true

/-! ## Rows and the store

A persisted Link row, and the relational store as a list of rows plus an
availability flag. The store enforces the uniqueness constraint on
`shortCode` atomically at insert time, exactly as the schema declares. -/

/-- A persisted row of the `links` table (`Link` in `src/db/schema.ts`). -/
structure LinkRow where
  id : String
  userId : String
  url : String
  shortCode : String
  createdAt : Nat
  updatedAt : Nat
  deriving Repr, DecidableEq

/-- The relational store: persisted rows plus whether the store is
reachable (an unreachable store reports a connectivity error). -/
structure Store where
  rows : List LinkRow
  available : Bool
  deriving Repr, DecidableEq

/-- Result of one insert attempt, as classified by the allocator: success,
a uniqueness violation on `short_code` (Postgres 23505), or any other
store error (connectivity etc.). -/
inductive InsertResult where
  | ok
  | uniqueViolation
  | storeError
  deriving Repr, DecidableEq

/-- A candidate short code collides when some persisted row already holds it. -/
def codeTaken (st : Store) (code : String) : Bool :=
  st.rows.any (fun r => r.shortCode == code)

/-- One atomic insert with uniqueness enforcement on `shortCode`: the store
arbitrates the constraint, the application never pre-checks. On failure the
store is unchanged. -/
def insertRow (st : Store) (row : LinkRow) : InsertResult × Store :=
  if st.available = false then (.storeError, st)
  else if codeTaken st row.shortCode then (.uniqueViolation, st)
  else (.ok, { st with rows := st.rows ++ [row] })

/-! ## The allocator, modelled from the specification -/

/-- The allocator's classified error kinds (spec §7). -/
inductive AllocError where
  | invalidURL
  | invalidCustomCode
  | codeAlreadyExists
  | allocationExhausted
  | storeUnavailable
  deriving Repr, DecidableEq

/-- Outcome of one allocation: a fully persisted Link or a classified error. -/
inductive AllocResult where
  | ok (link : LinkRow)
  | error (e : AllocError)
  deriving Repr, DecidableEq

/-- Modelled from the spec: URL validity is a pure predicate requiring a
syntactically valid absolute URL (scheme + host at minimum); per the
doc-embedded tests, `http://` and `https://` URLs with a host are valid
while `not-a-url`, `ftp://example.com` and the empty string are not. -/
def isValidUrl (url : String) : Bool :=
  (("http://".toList).isPrefixOf url.toList && decide (7 < url.length)) ||
  (("https://".toList).isPrefixOf url.toList && decide (8 < url.length))

/-- Modelled from the spec: a supplied custom code must be non-empty, match
the URL-safe character class (letters, digits, hyphen) and satisfy the
schema's length bound (≤ 20). -/
def isValidCustomCode (code : String) : Bool :=
  decide (0 < code.length) && decide (code.length ≤ 20) &&
    code.toList.all (fun c => c.isAlpha || c.isDigit || c == '-')

/-- One allocation request: the caller's inputs (`url`, `userId`, optional
`customCode`) together with the request's environment — the random
candidate oracle `gen` (the k-th fresh draw), the server-assigned id and
the current time. -/
structure AllocReq where
  url : String
  userId : String
  customCode : Option String
  gen : Nat → String
  newId : String
  now : Nat

/-- The fully populated Link a request persists under a given short code:
server-assigned `id`, both timestamps set to the creation instant. -/
def mkRow (q : AllocReq) (code : String) : LinkRow :=
  { id := q.newId, userId := q.userId, url := q.url, shortCode := code,
    createdAt := q.now, updatedAt := q.now }

/-- Modelled from the spec: the auto-generation retry bound (reference: 5
attempts). -/
def maxAttempts : Nat := 5

/-- Modelled from the spec: the auto-generation loop. Each attempt draws
the next independent fresh candidate from the oracle and tries the insert;
a uniqueness violation triggers a retry with a new candidate, any other
store error is surfaced immediately, and an exhausted budget yields
`AllocationExhausted`. -/
def genLoop (q : AllocReq) (st : Store) (attempt : Nat) : Nat → AllocResult × Store
  | 0 => (.error .allocationExhausted, st)
  | fuel + 1 =>
    match insertRow st (mkRow q (q.gen attempt)) with
    | (.ok, st') => (.ok (mkRow q (q.gen attempt)), st')
    | (.uniqueViolation, st') => genLoop q st' (attempt + 1) fuel
    | (.storeError, st') => (.error .storeUnavailable, st')

/-- Modelled from the spec: `allocate(url, userId, customCode?)`.
Validation first (`InvalidURL`, then `InvalidCustomCode`), then a direct
insert: a caller-chosen code is attempted exactly once (`CodeAlreadyExists`
on violation, never retried or substituted), an absent code enters the
bounded generation loop. -/
def allocate (q : AllocReq) (st : Store) : AllocResult × Store :=
  if isValidUrl q.url = false then (.error .invalidURL, st)
  else
    match q.customCode with
    | some code =>
      if isValidCustomCode code = false then (.error .invalidCustomCode, st)
      else
        match insertRow st (mkRow q code) with
        | (.ok, st') => (.ok (mkRow q code), st')
        | (.uniqueViolation, st') => (.error .codeAlreadyExists, st')
        | (.storeError, st') => (.error .storeUnavailable, st')
    | none => genLoop q st 0 maxAttempts

/-- A sequence of allocator operations run against the store, each request
keeping the store the previous one left. -/
def runAllocs (st : Store) : List AllocReq → Store
  | [] => st
  | q :: qs => runAllocs (allocate q st).2 qs

/-- The uniqueness invariant: the `shortCode`s of the persisted rows are
pairwise distinct. -/
def codesNodup (st : Store) : Prop :=
  (st.rows.map (fun r => r.shortCode)).Nodup

instance : DecidablePred codesNodup := fun st =>
  inferInstanceAs (Decidable ((st.rows.map (fun r => LinkRow.shortCode r)).Nodup))

/-! ## The seed script (`seedExampleLinks`, from the source) -/

/-- The hard-coded owner of every seeded link. -/
def seedUserId : String := "user_39muGGbHjuaOt6ll2so3UuE2c8y"

/-- The `exampleLinks` array of `seedExampleLinks`, verbatim. -/
def exampleLinks : List (String × String) :=
  [("https://github.com/facebook/react", "react-gh"),
   ("https://nextjs.org/docs", "next-docs"),
   ("https://tailwindcss.com/docs/installation", "tw-install"),
   ("https://www.typescriptlang.org/docs/", "ts-docs"),
   ("https://drizzle.team/docs/overview", "drizzle-ov"),
   ("https://ui.shadcn.com/docs", "shadcn-ui"),
   ("https://clerk.com/docs/quickstarts/nextjs", "clerk-next"),
   ("https://vercel.com/docs", "vercel-doc"),
   ("https://neon.tech/docs/introduction", "neon-intro"),
   ("https://lucide.dev/icons/", "lucide-ico")]

/-- The rows `seedExampleLinks` builds: for each example link an explicit
`nanoid()` id (the k-th draw of the id oracle), the fixed user, and
`new Date()` for both timestamps. -/
def seedRows (idGen : Nat → String) (now : Nat) : List LinkRow :=
  exampleLinks.enum.map (fun p =>
    { id := idGen p.1, userId := seedUserId, url := p.2.1, shortCode := p.2.2,
      createdAt := now, updatedAt := now })

/-- The seed loop: insert each row in order; on any insert error the
script's `catch` rethrows and aborts, modelled as `none`. -/
def runSeed (st : Store) : List LinkRow → Option Store
  | [] => some st
  | r :: rs =>
    match insertRow st r with
    | (.ok, st') => runSeed st' rs
    | (.uniqueViolation, _) => none
    | (.storeError, _) => none

/-- The character class of the seeded short codes: lowercase letters,
digits, hyphen. -/
def seedCodeChar (c : Char) : Bool :=
  c.isLower || c.isDigit || c == '-'

/-! ## Lemmas about the store's insert -/

theorem insertRow_eq_ok (st : Store) (row : LinkRow)
    (hav : st.available = true) (hfree : codeTaken st row.shortCode = false) :
    insertRow st row = (.ok, { st with rows := st.rows ++ [row] }) := by
  simp [insertRow, hav, hfree]

theorem insertRow_eq_violation (st : Store) (row : LinkRow)
    (hav : st.available = true) (htaken : codeTaken st row.shortCode = true) :
    insertRow st row = (.uniqueViolation, st) := by
  simp [insertRow, hav, htaken]

theorem insertRow_fail_store (st : Store) (row : LinkRow)
    (res : InsertResult) (st' : Store)
    (h : insertRow st row = (res, st')) (hres : res ≠ InsertResult.ok) :
    st' = st := by
  unfold insertRow at h
  split at h
  · injection h with h1 h2; exact h2.symm
  · split at h
    · injection h with h1 h2; exact h2.symm
    · injection h with h1 h2; exact absurd h1.symm hres

theorem insertRow_ok_dest (st : Store) (row : LinkRow) (st' : Store)
    (h : insertRow st row = (.ok, st')) :
    st' = { st with rows := st.rows ++ [row] } ∧
    st.available = true ∧ codeTaken st row.shortCode = false := by
  unfold insertRow at h
  split at h
  · injection h with h1 h2; exact absurd h1 (by intro hc; cases hc)
  · split at h
    · injection h with h1 h2; exact absurd h1 (by intro hc; cases hc)
    · injection h with h1 h2
      rename_i hav htaken
      exact ⟨h2.symm, by simpa using hav, by simpa using htaken⟩

theorem insertRow_nodup (st : Store) (row : LinkRow) (h : codesNodup st) :
    codesNodup (insertRow st row).2 := by
  unfold insertRow
  split
  · exact h
  · split
    · exact h
    · rename_i hav htaken
      unfold codesNodup at h ⊢
      simp only [List.map_append, List.map_cons, List.map_nil]
      rw [List.nodup_append]
      refine ⟨h, List.nodup_singleton _, ?_⟩
      intro a ha hb
      simp only [List.mem_singleton] at hb
      subst hb
      rw [List.mem_map] at ha
      obtain ⟨r, hr, hrc⟩ := ha
      have htk : codeTaken st row.shortCode = true := by
        unfold codeTaken
        rw [List.any_eq_true]
        exact ⟨r, hr, by simp [hrc]⟩
      simp [htk] at htaken

theorem insertRow_available (st : Store) (row : LinkRow) :
    (insertRow st row).2.available = st.available := by
  unfold insertRow
  split
  · rfl
  · split
    · rfl
    · rfl

/-! ## Lemmas about the generation loop -/

theorem genLoop_rows (q : AllocReq) :
    ∀ (fuel attempt : Nat) (st : Store),
    (genLoop q st attempt fuel).2.rows = st.rows ∨
    ∃ row, (genLoop q st attempt fuel).2.rows = st.rows ++ [row] := by
  intro fuel
  induction fuel with
  | zero => intro attempt st; exact Or.inl rfl
  | succ f ih =>
    intro attempt st
    simp only [genLoop]
    rcases h : insertRow st (mkRow q (q.gen attempt)) with ⟨res, st'⟩
    cases res with
    | ok =>
      obtain ⟨hst, -, -⟩ := insertRow_ok_dest _ _ _ h
      subst hst
      exact Or.inr ⟨mkRow q (q.gen attempt), rfl⟩
    | uniqueViolation =>
      have hst : st' = st := insertRow_fail_store _ _ _ _ h (by intro hc; cases hc)
      subst hst
      exact ih (attempt + 1) st'
    | storeError =>
      have hst : st' = st := insertRow_fail_store _ _ _ _ h (by intro hc; cases hc)
      subst hst
      exact Or.inl rfl

theorem genLoop_nodup (q : AllocReq) :
    ∀ (fuel attempt : Nat) (st : Store), codesNodup st →
    codesNodup (genLoop q st attempt fuel).2 := by
  intro fuel
  induction fuel with
  | zero => intro attempt st h; exact h
  | succ f ih =>
    intro attempt st h
    simp only [genLoop]
    rcases hins : insertRow st (mkRow q (q.gen attempt)) with ⟨res, st'⟩
    have hnd' : codesNodup st' := by
      have := insertRow_nodup st (mkRow q (q.gen attempt)) h
      rw [hins] at this
      exact this
    cases res with
    | ok => exact hnd'
    | uniqueViolation => exact ih (attempt + 1) st' hnd'
    | storeError => exact hnd'

theorem genLoop_success (q : AllocReq) :
    ∀ (N fuel attempt : Nat) (st : Store), st.available = true → N < fuel →
    (∀ k, k < N → codeTaken st (q.gen (attempt + k)) = true) →
    codeTaken st (q.gen (attempt + N)) = false →
    genLoop q st attempt fuel =
      (.ok (mkRow q (q.gen (attempt + N))),
       { st with rows := st.rows ++ [mkRow q (q.gen (attempt + N))] }) := by
  intro N
  induction N with
  | zero =>
    intro fuel attempt st hav hlt hcol hfree
    match fuel, hlt with
    | f + 1, _ =>
      rw [Nat.add_zero] at hfree
      simp only [genLoop, Nat.add_zero]
      rw [insertRow_eq_ok st (mkRow q (q.gen attempt)) hav hfree]
  | succ n ih =>
    intro fuel attempt st hav hlt hcol hfree
    match fuel, hlt with
    | f + 1, hlt =>
      simp only [genLoop]
      have hc0 : codeTaken st (q.gen attempt) = true := by
        have := hcol 0 (Nat.succ_pos n)
        rwa [Nat.add_zero] at this
      rw [insertRow_eq_violation st (mkRow q (q.gen attempt)) hav hc0]
      have hshift : attempt + 1 + n = attempt + (n + 1) := by omega
      have := ih f (attempt + 1) st hav (Nat.lt_of_succ_lt_succ hlt)
        (fun k hk => by
          have := hcol (k + 1) (Nat.succ_lt_succ hk)
          have heq : attempt + 1 + k = attempt + (k + 1) := by omega
          rwa [heq])
        (by rwa [hshift])
      rwa [hshift] at this

theorem genLoop_exhaust (q : AllocReq) :
    ∀ (fuel attempt : Nat) (st : Store), st.available = true →
    (∀ k, k < fuel → codeTaken st (q.gen (attempt + k)) = true) →
    genLoop q st attempt fuel = (.error .allocationExhausted, st) := by
  intro fuel
  induction fuel with
  | zero => intro attempt st _ _; rfl
  | succ f ih =>
    intro attempt st hav hcol
    simp only [genLoop]
    have hc0 : codeTaken st (q.gen attempt) = true := by
      have := hcol 0 (Nat.succ_pos f)
      rwa [Nat.add_zero] at this
    rw [insertRow_eq_violation st (mkRow q (q.gen attempt)) hav hc0]
    exact ih (attempt + 1) st hav (fun k hk => by
      have := hcol (k + 1) (Nat.succ_lt_succ hk)
      have heq : attempt + 1 + k = attempt + (k + 1) := by omega
      rwa [heq])

/-! ## Lemmas about allocate -/

theorem allocate_custom_ok (q : AllocReq) (st : Store) (code : String)
    (hurl : isValidUrl q.url = true) (hcc : q.customCode = some code)
    (hvc : isValidCustomCode code = true) (hav : st.available = true)
    (hfree : codeTaken st code = false) :
    allocate q st = (.ok (mkRow q code), { st with rows := st.rows ++ [mkRow q code] }) := by
  have hfree' : codeTaken st (mkRow q code).shortCode = false := hfree
  simp only [allocate, hurl, hcc, hvc, Bool.true_eq_false, if_false,
    insertRow_eq_ok st (mkRow q code) hav hfree']

theorem allocate_custom_conflict (q : AllocReq) (st : Store) (code : String)
    (hurl : isValidUrl q.url = true) (hcc : q.customCode = some code)
    (hvc : isValidCustomCode code = true) (hav : st.available = true)
    (htaken : codeTaken st code = true) :
    allocate q st = (.error .codeAlreadyExists, st) := by
  have htaken' : codeTaken st (mkRow q code).shortCode = true := htaken
  simp only [allocate, hurl, hcc, hvc, Bool.true_eq_false, if_false,
    insertRow_eq_violation st (mkRow q code) hav htaken']

theorem allocate_rows (q : AllocReq) (st : Store) :
    (allocate q st).2.rows = st.rows ∨
    ∃ row, (allocate q st).2.rows = st.rows ++ [row] := by
  unfold allocate
  split
  · exact Or.inl rfl
  · rcases hc : q.customCode with _ | code
    · simp only []
      exact genLoop_rows q maxAttempts 0 st
    · simp only []
      split
      · exact Or.inl rfl
      · rcases h : insertRow st (mkRow q code) with ⟨res, st'⟩
        cases res with
        | ok =>
          obtain ⟨hst, -, -⟩ := insertRow_ok_dest _ _ _ h
          subst hst
          exact Or.inr ⟨mkRow q code, rfl⟩
        | uniqueViolation =>
          have hst : st' = st := insertRow_fail_store _ _ _ _ h (by intro hx; cases hx)
          subst hst
          exact Or.inl rfl
        | storeError =>
          have hst : st' = st := insertRow_fail_store _ _ _ _ h (by intro hx; cases hx)
          subst hst
          exact Or.inl rfl

theorem allocate_nodup (q : AllocReq) (st : Store) (h : codesNodup st) :
    codesNodup (allocate q st).2 := by
  unfold allocate
  split
  · exact h
  · rcases hc : q.customCode with _ | code
    · simp only []
      exact genLoop_nodup q maxAttempts 0 st h
    · simp only []
      split
      · exact h
      · rcases hins : insertRow st (mkRow q code) with ⟨res, st'⟩
        have hnd' : codesNodup st' := by
          have := insertRow_nodup st (mkRow q code) h
          rw [hins] at this
          exact this
        cases res with
        | ok => exact hnd'
        | uniqueViolation => exact hnd'
        | storeError => exact hnd'

theorem runAllocs_mem (r : LinkRow) :
    ∀ (ops : List AllocReq) (st : Store), r ∈ st.rows →
    r ∈ (runAllocs st ops).rows := by
  intro ops
  induction ops with
  | nil => intro st hr; exact hr
  | cons q qs ih =>
    intro st hr
    simp only [runAllocs]
    apply ih
    rcases allocate_rows q st with heq | ⟨row, heq⟩
    · rw [heq]; exact hr
    · rw [heq]; exact List.mem_append_left _ hr

theorem runAllocs_nodup :
    ∀ (ops : List AllocReq) (st : Store), codesNodup st →
    codesNodup (runAllocs st ops) := by
  intro ops
  induction ops with
  | nil => intro st h; exact h
  | cons q qs ih =>
    intro st h
    simp only [runAllocs]
    exact ih _ (allocate_nodup q st h)

/-! ## Claim theorems -/

/-- Claim C1: for every two distinct persisted Links the `shortCode`s
differ; uniqueness is declared as a store-schema constraint (the
`.unique()` column modifier in `src/db/schema.ts` and the table-level
`UNIQUE("short_code")` constraint in the migration SQL), not only as
application logic; and the pairwise-distinctness invariant is preserved
after every sequence of allocator operations. -/
theorem C1_shortcode_unique (st : Store) (ops : List AllocReq)
    (hnd : codesNodup st) :
    shortCodeColumnTs.unique = true ∧
    linksTableMig.uniqueConstraints = [("links_short_code_unique", ["short_code"])] ∧
    codesNodup (runAllocs st ops) ∧
    ∀ L1 ∈ (runAllocs st ops).rows, ∀ L2 ∈ (runAllocs st ops).rows,
      L1 ≠ L2 → L1.shortCode ≠ L2.shortCode := by
  have hnd' := runAllocs_nodup ops st hnd
  refine ⟨rfl, rfl, hnd', ?_⟩
  intro L1 h1 L2 h2 hne hceq
  exact hne (List.inj_on_of_nodup_map hnd' h1 h2 hceq)

/-- A concrete custom-code allocation request used by witnesses. -/
def reqA : AllocReq :=
  { url := "https://example.com", userId := "uid-1", customCode := some "my-link",
    gen := fun k => String.mk (List.replicate (k + 1) 'g'), newId := "id-a", now := 3 }

theorem C1_shortcode_unique_witness :
    codesNodup ⟨[], true⟩ ∧ codesNodup (runAllocs ⟨[], true⟩ [reqA]) :=
  ⟨by simp [codesNodup],
   (C1_shortcode_unique ⟨[], true⟩ [reqA] (by simp [codesNodup])).2.2.1⟩

/-- Claim C2: with no custom code, each attempt draws the next independent
fresh candidate from the oracle and retries on a uniqueness violation up
to the fixed bound of 5 attempts: if the first N candidates collide and N
is below the bound, allocation succeeds with the (N+1)th candidate (index
N); if N is at or above the bound, it returns `AllocationExhausted`. -/
theorem C2_auto_retry (q : AllocReq) (st : Store) (N : Nat)
    (hav : st.available = true) (hurl : isValidUrl q.url = true)
    (hcc : q.customCode = none)
    (hcol : ∀ k, k < min N 5 → codeTaken st (q.gen k) = true) :
    (N < 5 → codeTaken st (q.gen N) = false →
      allocate q st = (.ok (mkRow q (q.gen N)),
        { st with rows := st.rows ++ [mkRow q (q.gen N)] })) ∧
    (5 ≤ N → allocate q st = (.error .allocationExhausted, st)) := by
  have halloc : allocate q st = genLoop q st 0 maxAttempts := by
    simp [allocate, hurl, hcc]
  constructor
  · intro hlt hfree
    rw [halloc]
    have hcol' : ∀ k, k < N → codeTaken st (q.gen (0 + k)) = true := by
      intro k hk
      rw [Nat.zero_add]
      exact hcol k (by omega)
    have hfree' : codeTaken st (q.gen (0 + N)) = false := by rwa [Nat.zero_add]
    have hres := genLoop_success q N maxAttempts 0 st hav
      (by simpa [maxAttempts] using hlt) hcol' hfree'
    rw [Nat.zero_add] at hres
    exact hres
  · intro hge
    rw [halloc]
    apply genLoop_exhaust q maxAttempts 0 st hav
    intro k hk
    rw [Nat.zero_add]
    refine hcol k ?_
    simp only [maxAttempts] at hk
    omega

/-- Candidate oracle for the C2 witness: the first draw collides with the
seeded row, the second is fresh. -/
def genC2 : Nat → String := fun k => if k = 0 then "c0" else "c1"

/-- Auto-generation request for the C2 witness. -/
def reqC2 : AllocReq :=
  { url := "https://example.com", userId := "uid-2", customCode := none,
    gen := genC2, newId := "id-b", now := 4 }

/-- Store for the C2 witness, already holding the code the first draw hits. -/
def stC2 : Store :=
  ⟨[{ id := "id-0", userId := "uid-0", url := "https://a.example",
      shortCode := "c0", createdAt := 0, updatedAt := 0 }], true⟩

theorem C2_auto_retry_witness :
    stC2.available = true ∧ isValidUrl reqC2.url = true ∧
    reqC2.customCode = none ∧
    (∀ k, k < min 1 5 → codeTaken stC2 (reqC2.gen k) = true) ∧
    codeTaken stC2 (reqC2.gen 1) = false ∧
    allocate reqC2 stC2 = (.ok (mkRow reqC2 (reqC2.gen 1)),
      { stC2 with rows := stC2.rows ++ [mkRow reqC2 (reqC2.gen 1)] }) :=
  ⟨rfl, by decide, rfl, by decide, by decide,
   (C2_auto_retry reqC2 stC2 1 rfl (by decide) rfl (by decide)).1
     (by decide) (by decide)⟩

/-- Claim C3: a valid supplied custom code is attempted exactly as given:
on success the persisted Link's `shortCode` equals the custom code; on a
uniqueness violation the result is `CodeAlreadyExists`, with no retry, no
substituted code and no new row (the store is returned unchanged). -/
theorem C3_custom_code (q : AllocReq) (st : Store) (code : String)
    (hurl : isValidUrl q.url = true) (hcc : q.customCode = some code)
    (hvc : isValidCustomCode code = true) (hav : st.available = true) :
    (mkRow q code).shortCode = code ∧
    (codeTaken st code = false →
      allocate q st = (.ok (mkRow q code),
        { st with rows := st.rows ++ [mkRow q code] })) ∧
    (codeTaken st code = true →
      allocate q st = (.error .codeAlreadyExists, st)) :=
  ⟨rfl,
   fun hfree => allocate_custom_ok q st code hurl hcc hvc hav hfree,
   fun htaken => allocate_custom_conflict q st code hurl hcc hvc hav htaken⟩

theorem C3_custom_code_witness :
    isValidUrl reqA.url = true ∧ reqA.customCode = some "my-link" ∧
    isValidCustomCode "my-link" = true ∧
    allocate reqA ⟨[], true⟩ = (.ok (mkRow reqA "my-link"),
      { rows := [mkRow reqA "my-link"], available := true }) :=
  ⟨by decide, rfl, by decide,
   (C3_custom_code reqA ⟨[], true⟩ "my-link" (by decide) rfl (by decide) rfl).2.1
     (by decide)⟩

/-- Claim C4: an invalid URL is rejected with `InvalidURL` before any
persistence attempt, for every userId and custom-code choice: the store is
returned exactly as it was, so no row is created. -/
theorem C4_invalid_url (q : AllocReq) (st : Store)
    (hurl : isValidUrl q.url = false) :
    allocate q st = (.error .invalidURL, st) := by
  simp [allocate, hurl]

/-- Invalid-URL request for the C4 witness, the spec's own example input. -/
def reqC4 : AllocReq :=
  { url := "not-a-url", userId := "uid-4", customCode := none,
    gen := fun _ => "zzz", newId := "id-c", now := 9 }

theorem C4_invalid_url_witness :
    isValidUrl reqC4.url = false ∧
    allocate reqC4 ⟨[], true⟩ = (.error .invalidURL, ⟨[], true⟩) :=
  ⟨by decide, C4_invalid_url reqC4 ⟨[], true⟩ (by decide)⟩

/-- Claim C5: `allocate` is total: every input terminates with either a
persisted Link or exactly one of the five classified error kinds
(`InvalidURL`, `InvalidCustomCode`, `CodeAlreadyExists`,
`AllocationExhausted`, `StoreUnavailable`) — never an unhandled crash. -/
theorem C5_allocate_total (q : AllocReq) (st : Store) :
    (∃ link st', allocate q st = (.ok link, st')) ∨
    (∃ e st', allocate q st = (.error e, st') ∧
      (e = .invalidURL ∨ e = .invalidCustomCode ∨ e = .codeAlreadyExists ∨
       e = .allocationExhausted ∨ e = .storeUnavailable)) := by
  rcases h : allocate q st with ⟨r, st'⟩
  cases r with
  | ok link => exact Or.inl ⟨link, st', rfl⟩
  | error e =>
    refine Or.inr ⟨e, st', rfl, ?_⟩
    cases e
    · exact Or.inl rfl
    · exact Or.inr (Or.inl rfl)
    · exact Or.inr (Or.inr (Or.inl rfl))
    · exact Or.inr (Or.inr (Or.inr (Or.inl rfl)))
    · exact Or.inr (Or.inr (Or.inr (Or.inr rfl)))

/-- Claim C6, checked against the source: the ORM schema
(`src/db/schema.ts`) does bound `shortCode` by `varchar(20)` and declares
`id` NOT NULL, but the checked-in migration SQL — the schema the store
actually persists — types `short_code` as unbounded `text`, so the
persisted schema accepts a 21-character code that the ORM declaration
rejects. -/
theorem C6_schema_length_divergence :
    shortCodeColumnTs.sqlType = SqlType.varcharN 20 ∧
    shortCodeColumnMig.sqlType = SqlType.text ∧
    colAccepts shortCodeColumnTs "aaaaaaaaaaaaaaaaaaaaa" = false ∧
    colAccepts shortCodeColumnMig "aaaaaaaaaaaaaaaaaaaaa" = true ∧
    idColumnTs.notNull = true ∧ idColumnMig.notNull = true := by
  refine ⟨rfl, rfl, ?_, rfl, rfl, rfl⟩
  decide

/-- Claim C7: rows are immutable once persisted — a row present in the
store is still present, with every field (in particular `createdAt`)
unchanged, after any further sequence of allocator operations; a single
allocation either leaves the row set unchanged or appends exactly one new
row, touching no unrelated row; and a freshly created row has `updatedAt`
equal to `createdAt`, both set to the creation instant (no mutating
operation exists in the current design, so refresh-on-mutation holds for
every mutation there is). -/
theorem C7_created_at_immutable (ops : List AllocReq) (st : Store)
    (r : LinkRow) (hr : r ∈ st.rows) :
    r ∈ (runAllocs st ops).rows ∧
    (∀ q st0, (allocate q st0).2.rows = st0.rows ∨
      ∃ row, (allocate q st0).2.rows = st0.rows ++ [row]) ∧
    (∀ q code, (mkRow q code).createdAt = q.now ∧ (mkRow q code).updatedAt = q.now) :=
  ⟨runAllocs_mem r ops st hr, fun q st0 => allocate_rows q st0,
   fun _ _ => ⟨rfl, rfl⟩⟩

/-- A pre-existing row for the C7 witness. -/
def rowC7 : LinkRow :=
  { id := "id-7", userId := "uid-7", url := "https://seven.example",
    shortCode := "seven", createdAt := 1, updatedAt := 2 }

theorem C7_created_at_immutable_witness :
    rowC7 ∈ (⟨[rowC7], true⟩ : Store).rows ∧
    rowC7 ∈ (runAllocs ⟨[rowC7], true⟩ [reqC2]).rows :=
  ⟨by simp,
   (C7_created_at_immutable [reqC2] ⟨[rowC7], true⟩ rowC7 (by simp)).1⟩

/-- Claim C8: two concurrent allocations of the same valid custom code
against a store where the code is free — serialized in either order by the
store's atomic uniqueness constraint, the only arbitration point — always
produce exactly one success and one `CodeAlreadyExists`: never two
successes and never zero. -/
theorem C8_concurrent_custom_race (q1 q2 : AllocReq) (st : Store)
    (code : String)
    (h1 : q1.customCode = some code) (h2 : q2.customCode = some code)
    (hu1 : isValidUrl q1.url = true) (hu2 : isValidUrl q2.url = true)
    (hvc : isValidCustomCode code = true)
    (hav : st.available = true) (hfree : codeTaken st code = false) :
    ((allocate q1 st).1 = .ok (mkRow q1 code) ∧
     (allocate q2 (allocate q1 st).2).1 = .error .codeAlreadyExists) ∧
    ((allocate q2 st).1 = .ok (mkRow q2 code) ∧
     (allocate q1 (allocate q2 st).2).1 = .error .codeAlreadyExists) := by
  have key : ∀ qa qb : AllocReq, qa.customCode = some code →
      qb.customCode = some code → isValidUrl qa.url = true →
      isValidUrl qb.url = true →
      (allocate qa st).1 = .ok (mkRow qa code) ∧
      (allocate qb (allocate qa st).2).1 = .error .codeAlreadyExists := by
    intro qa qb hca hcb hua hub
    have hA := allocate_custom_ok qa st code hua hca hvc hav hfree
    have hA1 : (allocate qa st).1 = .ok (mkRow qa code) := by rw [hA]
    have hA2 : (allocate qa st).2 = { st with rows := st.rows ++ [mkRow qa code] } := by
      rw [hA]
    have hav' : ({ st with rows := st.rows ++ [mkRow qa code] } : Store).available = true :=
      hav
    have htaken : codeTaken { st with rows := st.rows ++ [mkRow qa code] } code = true := by
      simp [codeTaken, mkRow]
    refine ⟨hA1, ?_⟩
    rw [hA2, allocate_custom_conflict qb _ code hub hcb hvc hav' htaken]
  exact ⟨key q1 q2 h1 h2 hu1 hu2, key q2 q1 h2 h1 hu2 hu1⟩

/-- The second racer for the C8 witness: same custom code, different URL. -/
def reqB : AllocReq :=
  { url := "https://other.example", userId := "uid-8",
    customCode := some "my-link", gen := fun _ => "h", newId := "id-d",
    now := 11 }

theorem C8_concurrent_custom_race_witness :
    reqA.customCode = some "my-link" ∧ reqB.customCode = some "my-link" ∧
    isValidUrl reqA.url = true ∧ isValidUrl reqB.url = true ∧
    isValidCustomCode "my-link" = true ∧
    codeTaken ⟨[], true⟩ "my-link" = false ∧
    (allocate reqA ⟨[], true⟩).1 = .ok (mkRow reqA "my-link") ∧
    (allocate reqB (allocate reqA ⟨[], true⟩).2).1 = .error .codeAlreadyExists :=
  ⟨rfl, rfl, by decide, by decide, by decide, by decide,
   (C8_concurrent_custom_race reqA reqB ⟨[], true⟩ "my-link" rfl rfl
     (by decide) (by decide) (by decide) rfl (by decide)).1⟩

/-- Claim C9: `seedExampleLinks` inserts exactly 10 rows, all owned by the
one hard-coded userId, with pairwise-distinct, non-empty short codes of at
most 10 characters drawn only from lowercase letters, digits and hyphen —
hence all within the ORM schema's 20-character bound — and, starting from
an empty `links` table, the whole seed runs without any uniqueness
violation, ending with exactly 10 persisted rows. -/
theorem C9_seed_example_links (idGen : Nat → String) (now : Nat) :
    (seedRows idGen now).length = 10 ∧
    ((seedRows idGen now).all (fun r => r.userId == seedUserId)) = true ∧
    ((seedRows idGen now).map (fun r => LinkRow.shortCode r)).Nodup ∧
    ((seedRows idGen now).all (fun r =>
      (!(r.shortCode == "")) && decide (r.shortCode.length ≤ 10) &&
      r.shortCode.toList.all seedCodeChar &&
      colAccepts shortCodeColumnTs r.shortCode)) = true ∧
    ((runSeed ⟨[], true⟩ (seedRows idGen now)).map (fun s => s.rows.length))
      = some 10 := by
  refine ⟨rfl, rfl, ?_, rfl, rfl⟩
  have hmap : (seedRows idGen now).map (fun r => LinkRow.shortCode r) =
      ["react-gh", "next-docs", "tw-install", "ts-docs", "drizzle-ov",
       "shadcn-ui", "clerk-next", "vercel-doc", "neon-intro", "lucide-ico"] := rfl
  rw [hmap]
  decide

theorem string_ne_empty_of_length21 (s : String) (h : s.length = 21) :
    s ≠ "" := by
  intro he
  subst he
  exact absurd h (by decide)

/-- Claim C10: neither schema declares a database-side default for `id`
(unlike `created_at` and `updated_at`, which default to `now()`), so every
insert must supply the id itself; the seed script does so with `nanoid()`
(21-character draws), making every seeded row's id non-empty. -/
theorem C10_id_explicit (idGen : Nat → String) (now : Nat)
    (h : ∀ k, (idGen k).length = 21) :
    idColumnTs.defaultSql = none ∧ idColumnMig.defaultSql = none ∧
    createdAtColumnTs.defaultSql = some "now()" ∧
    updatedAtColumnTs.defaultSql = some "now()" ∧
    createdAtColumnMig.defaultSql = some "now()" ∧
    updatedAtColumnMig.defaultSql = some "now()" ∧
    ∀ r ∈ seedRows idGen now, r.id ≠ "" := by
  refine ⟨rfl, rfl, rfl, rfl, rfl, rfl, ?_⟩
  intro r hr
  unfold seedRows at hr
  obtain ⟨p, hp, rfl⟩ := List.mem_map.1 hr
  exact string_ne_empty_of_length21 _ (h p.1)

/-- The id oracle for the C10 witness: a fixed 21-character id, matching
nanoid's default length. -/
def nanoidFixed : Nat → String := fun _ => "AbCdEfGhIjKlMnOpQrStU"

theorem C10_id_explicit_witness :
    (∀ k, (nanoidFixed k).length = 21) ∧
    ∀ r ∈ seedRows nanoidFixed 0, r.id ≠ "" :=
  ⟨fun _ => rfl,
   (C10_id_explicit nanoidFixed 0 (fun _ => rfl)).2.2.2.2.2.2⟩

end LinkShortener
